import Mathlib

/-!
# Verification of the `Vector` repository (offset-indexed containers)

Shallow embedding of the Rust crate's two container families:

* `OwnedVector` / `BorrowedVector` (files `owned_vector.rs`, `borrowed_vector.rs`,
  `vector_error.rs`): offset-indexed containers whose reads fail with
  `VectorError::Indexing` outside `[start, end]`.
* `Vector` with `Info` metadata (files `vector.rs`, `info.rs`): the
  fallback-overlay family whose reads substitute fallback values outside the span.

Machine integers: Rust `usize` values are modelled as `Nat` below `W = 2 ^ 64`.
Arithmetic that the source performs with plain `+` / `-` on `usize` is modelled
with the release-profile (two's-complement wrapping) semantics, taken explicitly
modulo `W`; the source's `wrapping_sub` is modelled by `wrappingSub`.
Rust panics (slice-indexing out of bounds, `unwrap` on `Err`) are modelled by
`Option`, with `none` standing for a panic.
-/

set_option autoImplicit false

namespace VectorSpec

/-- The number of values of the 64-bit `usize` type: `2 ^ 64`. -/
def W : Nat := 2 ^ 64

/-- Rust `a.wrapping_sub(b)` on `usize`, for `a b < W`. -/
def wrappingSub (a b : Nat) : Nat := (a + W - b) % W

/-- The error enum of `vector_error.rs` (`VectorError`):
`Order {start, end}`, `Length {len, start, end}`, `Indexing {index}`,
`Compatibility {start_1, start_2, end_1, end_2}`. -/
inductive VectorError where
  | Order (start end_ : Nat)
  | Length (len start end_ : Nat)
  | Indexing (index : Nat)
  | Compatibility (start_1 start_2 end_1 end_2 : Nat)
deriving DecidableEq, Repr

/-- Model of `VectorError::check_order`: `Ok(())` iff `start <= end`. -/
def VectorError.check_order (start end_ : Nat) : Except VectorError Unit :=
  if start ≤ end_ then .ok () else .error (.Order start end_)

/-- Model of `VectorError::check_len`: the source guard is `len + start == end + 1` on
`usize`; with release overflow semantics both sides wrap modulo `W`. -/
def VectorError.check_len (len start end_ : Nat) : Except VectorError Unit :=
  if (len + start) % W = (end_ + 1) % W then .ok ()
  else .error (.Length len start end_)

/-- Model of `OwnedVector<V>` of `owned_vector.rs`: a backing vector plus the inclusive
span bounds `start` and `end` (the Rust field `end` is spelled `end_`). -/
structure OwnedVector (V : Type) where
  vector : List V
  start : Nat
  end_ : Nat
deriving DecidableEq, Repr

/-- Model of `BorrowedVector<'a, V>` of `borrowed_vector.rs`: a borrowed slice plus the
inclusive span bounds (`end` spelled `end_`). -/
structure BorrowedVector (V : Type) where
  slice_ : List V
  start : Nat
  end_ : Nat
deriving DecidableEq, Repr

/-- Model of `OwnedVector::from_vec`: `check_order`, then `check_len` on the vector's
length, then wrap the fields. -/
def OwnedVector.from_vec {V : Type} (vec : List V) (start end_ : Nat) :
    Except VectorError (OwnedVector V) :=
  match VectorError.check_order start end_ with
  | .error e => .error e
  | .ok _ =>
    match VectorError.check_len vec.length start end_ with
    | .error e => .error e
    | .ok _ => .ok ⟨vec, start, end_⟩

/-- Model of `BorrowedVector::try_new`: same validation as `OwnedVector::from_vec`. -/
def BorrowedVector.try_new {V : Type} (slice : List V) (start end_ : Nat) :
    Except VectorError (BorrowedVector V) :=
  match VectorError.check_order start end_ with
  | .error e => .error e
  | .ok _ =>
    match VectorError.check_len slice.length start end_ with
    | .error e => .error e
    | .ok _ => .ok ⟨slice, start, end_⟩

/-- Model of `OwnedVector::get`: `self.vector.get(index.wrapping_sub(self.start))`,
`Err(Indexing {index})` when the wrapped position is out of the storage. -/
def OwnedVector.get {V : Type} (v : OwnedVector V) (index : Nat) :
    Except VectorError V :=
  match v.vector[wrappingSub index v.start]? with
  | some x => .ok x
  | none => .error (.Indexing index)

/-- Model of `BorrowedVector::get`: identical to `OwnedVector::get` over the slice. -/
def BorrowedVector.get {V : Type} (v : BorrowedVector V) (index : Nat) :
    Except VectorError V :=
  match v.slice_[wrappingSub index v.start]? with
  | some x => .ok x
  | none => .error (.Indexing index)

/-- Rust `&l[a..=b]` on a slice: defined (`some`) iff `a <= b + 1` and
`b + 1 <= l.len()`; otherwise the slice indexing panics (`none`). -/
def listSliceInclusive {V : Type} (l : List V) (a b : Nat) : Option (List V) :=
  if a ≤ b + 1 ∧ b + 1 ≤ l.length then some ((l.drop a).take (b + 1 - a))
  else none

/-- Model of `OwnedVector::slice`: bounds guard, then Rust slice indexing
`&self.vector[start - self.start ..= end - self.start]` (panic modelled by
`none`; the two plain `usize` subtractions wrap on underflow in release
builds, hence `wrappingSub`), then `BorrowedVector::try_new`.  On a failed
guard, the reported index is `start` when `start < self.start`, else `end`. -/
def OwnedVector.slice {V : Type} (v : OwnedVector V) (start end_ : Nat) :
    Option (Except VectorError (BorrowedVector V)) :=
  if v.start ≤ start ∧ end_ ≤ v.end_ then
    match listSliceInclusive v.vector (wrappingSub start v.start)
        (wrappingSub end_ v.start) with
    | none => none
    | some s => some (BorrowedVector.try_new s start end_)
  else
    some (.error (.Indexing (if start < v.start then start else end_)))

/-- Model of `BorrowedVector::slice`: same as `OwnedVector::slice`, against the view's
own current span. -/
def BorrowedVector.slice {V : Type} (v : BorrowedVector V) (start end_ : Nat) :
    Option (Except VectorError (BorrowedVector V)) :=
  if v.start ≤ start ∧ end_ ≤ v.end_ then
    match listSliceInclusive v.slice_ (wrappingSub start v.start)
        (wrappingSub end_ v.start) with
    | none => none
    | some s => some (BorrowedVector.try_new s start end_)
  else
    some (.error (.Indexing (if start < v.start then start else end_)))

/-- The construction invariant of the Owned/Borrowed family, in exact
arithmetic: ordered bounds inside `usize` range and storage length equal to
the span length `end - start + 1`. -/
def OwnedVector.Wf {V : Type} (v : OwnedVector V) : Prop :=
  v.start ≤ v.end_ ∧ v.end_ < W ∧ v.vector.length = v.end_ - v.start + 1

/-- The construction invariant of `BorrowedVector`, as for `OwnedVector`. -/
def BorrowedVector.Wf {V : Type} (v : BorrowedVector V) : Prop :=
  v.start ≤ v.end_ ∧ v.end_ < W ∧ v.slice_.length = v.end_ - v.start + 1

/-- Model of `Info<T>` of `info.rs`: span bounds plus the two fallback values
(`end` spelled `end_`).  The constructors enforce `start <= end`. -/
structure Info (T : Type) where
  start : Nat
  end_ : Nat
  fallback_start : T
  fallback_end : T
deriving DecidableEq, Repr

/-- Model of `InfoError` of `info.rs`. -/
inductive InfoError where
  | InvalidInterval (start end_ : Nat)
deriving DecidableEq, Repr

/-- Model of `InfoError::check_interval`: `Ok(())` iff `start <= end`. -/
def InfoError.check_interval (start end_ : Nat) : Except InfoError Unit :=
  if start ≤ end_ then .ok () else .error (.InvalidInterval start end_)

/-- Model of `Info::new`. -/
def Info.new {T : Type} (start end_ : Nat) (fallback_start fallback_end : T) :
    Except InfoError (Info T) :=
  match InfoError.check_interval start end_ with
  | .error e => .error e
  | .ok _ => .ok ⟨start, end_, fallback_start, fallback_end⟩

/-- Model of `Info::len`: `self.end - self.start + 1` on `usize`; the subtraction and
the increment wrap in release builds, so the whole is taken modulo `W`. -/
def Info.len {T : Type} (i : Info T) : Nat := (wrappingSub i.end_ i.start + 1) % W

/-- Model of `Vector<T>` of `vector.rs`: the fallback-overlay container. -/
structure Vector (T : Type) where
  data : List T
  info : Info T
deriving DecidableEq, Repr

/-- The error enum of `vector.rs` (also named `VectorError` in the source;
namespaced under `Vector` here because the other revision's `VectorError`
already takes the top-level name). -/
inductive Vector.VectorError where
  | IncompatibleInterval (start_1 end_1 start_2 end_2 : Nat)
  | InvalidLength (vector_length info_length : Nat)
  | IncompatibleFallback
deriving DecidableEq, Repr

/-- Model of `VectorError::check_interval` of `vector.rs`: equal `start`s and `end`s. -/
def Vector.VectorError.check_interval {T : Type} (info_1 info_2 : Info T) :
    Except Vector.VectorError Unit :=
  if info_1.start = info_2.start ∧ info_1.end_ = info_2.end_ then .ok ()
  else
    .error (.IncompatibleInterval info_1.start info_1.end_ info_2.start info_2.end_)

/-- Model of `VectorError::check_length` of `vector.rs`: data length equals `info.len()`. -/
def Vector.VectorError.check_length {T : Type} (vector : List T) (info : Info T) :
    Except Vector.VectorError Unit :=
  if vector.length = info.len then .ok ()
  else .error (.InvalidLength vector.length info.len)

/-- Model of `VectorError::check_fallback` of `vector.rs`: equal fallback pairs. -/
def Vector.VectorError.check_fallback {T : Type} [DecidableEq T]
    (info_1 info_2 : Info T) : Except Vector.VectorError Unit :=
  if info_1.fallback_start = info_2.fallback_start ∧
      info_1.fallback_end = info_2.fallback_end then .ok ()
  else .error .IncompatibleFallback

/-- Model of `Vector::with_capacity`: `Vec::with_capacity(info.len())` only reserves
capacity, so the data is the empty sequence. -/
def Vector.with_capacity {T : Type} (info : Info T) : Vector T := ⟨[], info⟩

/-- Model of `Vector::with_value`: `vec![value; info.len()]`. -/
def Vector.with_value {T : Type} (value : T) (info : Info T) : Vector T :=
  ⟨List.replicate info.len value, info⟩

/-- Model of `Vector::from_data`: validated by `check_length`. -/
def Vector.from_data {T : Type} (data : List T) (info : Info T) :
    Except Vector.VectorError (Vector T) :=
  match Vector.VectorError.check_length data info with
  | .error e => .error e
  | .ok _ => .ok ⟨data, info⟩

/-- The `Index<usize>` impl of `vector.rs`: total fallback-substituting read;
in range it is `&self.data[index - start]`, whose out-of-bounds panic is
modelled by `none`. -/
def Vector.index {T : Type} (v : Vector T) (index : Nat) : Option T :=
  if index < v.info.start then some v.info.fallback_start
  else if v.info.end_ < index then some v.info.fallback_end
  else v.data[index - v.info.start]?

/-- Common shape of the four `try_*_assign` methods of `vector.rs`: run
`check_interval` then `check_fallback`; on error return it with the left
operand untouched (the Rust method returns before mutating `self`).  On
success the Rust `self.data.iter_mut().zip(other.data.iter()).for_each(..)`
mutates `self.data` in place: it combines the first
`min(self.data.len(), other.data.len())` elements pairwise with `f` and
leaves the unpaired tail of `self.data` unchanged, never changing its
length — hence the zip of the two data vectors followed by the left
operand's tail beyond the right operand's length. -/
def Vector.tryAssignGen {T : Type} [DecidableEq T] (f : T → T → T)
    (a b : Vector T) : Except Vector.VectorError Unit × Vector T :=
  match Vector.VectorError.check_interval a.info b.info with
  | .error e => (.error e, a)
  | .ok _ =>
    match Vector.VectorError.check_fallback a.info b.info with
    | .error e => (.error e, a)
    | .ok _ =>
      (.ok (), ⟨List.zipWith f a.data b.data ++ a.data.drop b.data.length, a.info⟩)

/-- Model of `Vector::try_add_assign`. -/
def Vector.try_add_assign {T : Type} [DecidableEq T] [Add T] (a b : Vector T) :
    Except Vector.VectorError Unit × Vector T :=
  Vector.tryAssignGen (· + ·) a b

/-- Model of `Vector::try_sub_assign`. -/
def Vector.try_sub_assign {T : Type} [DecidableEq T] [Sub T] (a b : Vector T) :
    Except Vector.VectorError Unit × Vector T :=
  Vector.tryAssignGen (· - ·) a b

/-- Model of `Vector::try_mul_assign`. -/
def Vector.try_mul_assign {T : Type} [DecidableEq T] [Mul T] (a b : Vector T) :
    Except Vector.VectorError Unit × Vector T :=
  Vector.tryAssignGen (· * ·) a b

/-- Model of `Vector::try_div_assign`. -/
def Vector.try_div_assign {T : Type} [DecidableEq T] [Div T] (a b : Vector T) :
    Except Vector.VectorError Unit × Vector T :=
  Vector.tryAssignGen (· / ·) a b

/-- The `Add for &Vector` impl of `vector.rs`: both checks, then a new
container from the elementwise sum, carrying the left operand's `info`. -/
def Vector.add {T : Type} [DecidableEq T] [Add T] (a b : Vector T) :
    Except Vector.VectorError (Vector T) :=
  match Vector.VectorError.check_interval a.info b.info with
  | .error e => .error e
  | .ok _ =>
    match Vector.VectorError.check_fallback a.info b.info with
    | .error e => .error e
    | .ok _ => .ok ⟨List.zipWith (· + ·) a.data b.data, a.info⟩

/-- The kind (discriminant) of a `vector.rs` error, used to compare the
variant of two errors independently of their payloads. -/
def Vector.VectorError.kind : Vector.VectorError → Nat
  | .IncompatibleInterval _ _ _ _ => 0
  | .InvalidLength _ _ => 1
  | .IncompatibleFallback => 2

/-- Two results of an elementwise operation agree observationally: both fail
with the same error variant, or both succeed with the same data and the same
`Info` fields. -/
def Vector.sameOutcome {T : Type} :
    Except Vector.VectorError (Vector T) → Except Vector.VectorError (Vector T) → Prop
  | .error e1, .error e2 => e1.kind = e2.kind
  | .ok v1, .ok v2 => v1.data = v2.data ∧ v1.info = v2.info
  | _, _ => False

/-- The `vector![start; elements...]` macro of `macros.rs`:
`end = if len > 0 { start + len - 1 } else { start }` (wrapping on overflow in
release builds), then `OwnedVector::from_vec(..).unwrap()`; the `unwrap`
panic is modelled by `none`. -/
def vectorLit {V : Type} (start : Nat) (elems : List V) : Option (OwnedVector V) :=
  match OwnedVector.from_vec elems start
      (if 0 < elems.length then (start + elems.length - 1) % W else start) with
  | .ok v => some v
  | .error _ => none

/-! ## Arithmetic helper lemmas for the `usize` model -/

theorem W_pos : 0 < W := by norm_num [W]

theorem one_lt_W : 1 < W := by norm_num [W]

/-- The model of `wrapping_sub` computes the exact difference when it does not underflow. -/
theorem wrappingSub_of_le {a b : Nat} (hba : b ≤ a) (ha : a < W) :
    wrappingSub a b = a - b := by
  unfold wrappingSub
  have h : a + W - b = (a - b) + W := by omega
  rw [h, Nat.add_mod_right, Nat.mod_eq_of_lt (by omega)]

/-- The model of `wrapping_sub` on underflow: distance from the wrap-around point. -/
theorem wrappingSub_of_lt {a b : Nat} (hab : a < b) (hb : b ≤ W) :
    wrappingSub a b = a + W - b := by
  unfold wrappingSub
  exact Nat.mod_eq_of_lt (by omega)

/-- Reduce one wrap of `% W` for sums below `2 * W`. -/
theorem mod_W_cases (n : Nat) (h : n < 2 * W) :
    (n < W ∧ n % W = n) ∨ (W ≤ n ∧ n % W = n - W) := by
  rcases Nat.lt_or_ge n W with h1 | h1
  · exact Or.inl ⟨h1, Nat.mod_eq_of_lt h1⟩
  · exact Or.inr ⟨h1, by rw [Nat.mod_eq_sub_mod h1, Nat.mod_eq_of_lt (by omega)]⟩

/-- On a well-formed container, the wrapped offset of an index outside
`[start, end]` is at least the storage length, so it can never reach a
stored element. -/
theorem wrappingSub_oob {s e i : Nat} (hse : s ≤ e) (he : e < W) (hi : i < W)
    (hout : i < s ∨ e < i) : e - s + 1 ≤ wrappingSub i s := by
  rcases hout with h | h
  · rw [wrappingSub_of_lt h (by omega)]
    omega
  · rw [wrappingSub_of_le (by omega) hi]
    omega

/-! ## C1: `get` on the Owned/Borrowed family -/

/-- C1: for a successfully constructed `OwnedVector` or `BorrowedVector`
(storage length equals `end - start + 1`) and any `usize` index `i`:
in range, `get i` returns the element at storage position `i - start`;
out of range, `get i` fails with `Indexing {index: i}`, and the wrapping
subtraction `i - start` never lands inside the storage. -/
theorem owned_borrowed_get_spec {V : Type} (v : OwnedVector V)
    (w : BorrowedVector V) (i : Nat) (hv : v.Wf) (hw : w.Wf) (hi : i < W) :
    (v.start ≤ i ∧ i ≤ v.end_ →
      ∃ x, v.vector[i - v.start]? = some x ∧ v.get i = .ok x) ∧
    (i < v.start ∨ v.end_ < i →
      v.get i = .error (.Indexing i) ∧ v.vector.length ≤ wrappingSub i v.start) ∧
    (w.start ≤ i ∧ i ≤ w.end_ →
      ∃ x, w.slice_[i - w.start]? = some x ∧ w.get i = .ok x) ∧
    (i < w.start ∨ w.end_ < i →
      w.get i = .error (.Indexing i) ∧ w.slice_.length ≤ wrappingSub i w.start) := by
  obtain ⟨hv1, hv2, hv3⟩ := hv
  obtain ⟨hw1, hw2, hw3⟩ := hw
  refine ⟨?_, ?_, ?_, ?_⟩
  · rintro ⟨ha, hb⟩
    have hws : wrappingSub i v.start = i - v.start := wrappingSub_of_le ha hi
    have hlt : i - v.start < v.vector.length := by omega
    exact ⟨v.vector[i - v.start], List.getElem?_eq_getElem hlt, by
      simp [OwnedVector.get, hws, List.getElem?_eq_getElem hlt]⟩
  · intro hout
    have hge : v.vector.length ≤ wrappingSub i v.start := by
      rw [hv3]; exact wrappingSub_oob hv1 hv2 hi hout
    refine ⟨?_, hge⟩
    simp [OwnedVector.get, List.getElem?_eq_none hge]
  · rintro ⟨ha, hb⟩
    have hws : wrappingSub i w.start = i - w.start := wrappingSub_of_le ha hi
    have hlt : i - w.start < w.slice_.length := by omega
    exact ⟨w.slice_[i - w.start], List.getElem?_eq_getElem hlt, by
      simp [BorrowedVector.get, hws, List.getElem?_eq_getElem hlt]⟩
  · intro hout
    have hge : w.slice_.length ≤ wrappingSub i w.start := by
      rw [hw3]; exact wrappingSub_oob hw1 hw2 hi hout
    refine ⟨?_, hge⟩
    simp [BorrowedVector.get, List.getElem?_eq_none hge]

/-- Witness for C1 at the spec's concrete scenario: the container built from
`[5, 6, 7]` with span `[5, 7]` rejects index `4` with `Indexing {4}`, and the
wrapped offset of `4` is outside the storage. -/
theorem owned_borrowed_get_spec_witness :
    (⟨[5, 6, 7], 5, 7⟩ : OwnedVector Int).get 4 = .error (.Indexing 4) ∧
    ([5, 6, 7] : List Int).length ≤ wrappingSub 4 5 := by
  exact (owned_borrowed_get_spec (⟨[5, 6, 7], 5, 7⟩ : OwnedVector Int)
    (⟨[9], 0, 0⟩ : BorrowedVector Int) 4
    ⟨by decide, by decide, by decide⟩
    ⟨by decide, by decide, by decide⟩
    (by decide)).2.1 (Or.inl (by decide))

/-! ## Helper characterizations of the validation checks -/

theorem check_interval_eq_ok_iff {T : Type} (i1 i2 : Info T) :
    Vector.VectorError.check_interval i1 i2 = .ok () ↔
      i1.start = i2.start ∧ i1.end_ = i2.end_ := by
  unfold Vector.VectorError.check_interval
  split_ifs with h <;> simp [h]

theorem check_fallback_eq_ok_iff {T : Type} [DecidableEq T] (i1 i2 : Info T) :
    Vector.VectorError.check_fallback i1 i2 = .ok () ↔
      i1.fallback_start = i2.fallback_start ∧ i1.fallback_end = i2.fallback_end := by
  unfold Vector.VectorError.check_fallback
  split_ifs with h <;> simp [h]

/-! ## C2: constructors and the length invariant -/

/-- C2 counterexample: `Vector::with_capacity` only reserves capacity, so a
successfully constructed `Info` with span `[0, 0]` (length 1) yields a
container whose data length is 0, not `info.len()`. -/
theorem with_capacity_breaks_invariant :
    Info.new 0 0 (0 : Int) 0 = .ok ⟨0, 0, 0, 0⟩ ∧
    (Vector.with_capacity (⟨0, 0, (0 : Int), 0⟩ : Info Int)).data.length = 0 ∧
    (⟨0, 0, (0 : Int), 0⟩ : Info Int).len = 1 := by
  refine ⟨rfl, rfl, ?_⟩
  decide

/-- C2 (amended): `with_value` and `from_data` establish
`data.len() == info.len()`, and `from_vec` / `try_new` establish the exact
span-length invariant whenever `end + 1` does not overflow; but
`with_capacity` always yields empty data, violating the invariant whenever
`info.len() > 0`.  No subsequent operation changes the data length: the
in-place elementwise operations preserve the left operand's data length
unconditionally. -/
theorem constructors_length_spec {T V : Type} [DecidableEq T]
    (value : T) (info : Info T) (data : List T) (rv : Vector T)
    (a b : Vector T) (f : T → T → T)
    (vec : List V) (s e : Nat) (ov : OwnedVector V) (bw : BorrowedVector V) :
    (Vector.with_value value info).data.length = info.len ∧
    (Vector.from_data data info = .ok rv → rv.data.length = info.len) ∧
    (Vector.with_capacity info).data.length = 0 ∧
    (e + 1 < W → vec.length < W → OwnedVector.from_vec vec s e = .ok ov →
      ov.vector.length = e - s + 1) ∧
    (e + 1 < W → vec.length < W → BorrowedVector.try_new vec s e = .ok bw →
      bw.slice_.length = e - s + 1) ∧
    (Vector.tryAssignGen f a b).2.data.length = a.data.length := by
  refine ⟨by simp [Vector.with_value], ?_, rfl, ?_, ?_, ?_⟩
  · intro h
    unfold Vector.from_data Vector.VectorError.check_length at h
    split_ifs at h with hc
    · cases h
      exact hc
  · intro he hlen h
    unfold OwnedVector.from_vec VectorError.check_order VectorError.check_len at h
    split_ifs at h with h1 h2
    · cases h
      have hew : (e + 1) % W = e + 1 := Nat.mod_eq_of_lt (by omega)
      rw [hew] at h2
      show vec.length = e - s + 1
      rcases mod_W_cases (vec.length + s) (by omega) with ⟨ha, hb⟩ | ⟨ha, hb⟩ <;> omega
  · intro he hlen h
    unfold BorrowedVector.try_new VectorError.check_order VectorError.check_len at h
    split_ifs at h with h1 h2
    · cases h
      have hew : (e + 1) % W = e + 1 := Nat.mod_eq_of_lt (by omega)
      rw [hew] at h2
      show vec.length = e - s + 1
      rcases mod_W_cases (vec.length + s) (by omega) with ⟨ha, hb⟩ | ⟨ha, hb⟩ <;> omega
  · unfold Vector.tryAssignGen
    cases Vector.VectorError.check_interval a.info b.info with
    | error e => rfl
    | ok u =>
      cases Vector.VectorError.check_fallback a.info b.info with
      | error e => rfl
      | ok u =>
        show (List.zipWith f a.data b.data ++ a.data.drop b.data.length).length =
          a.data.length
        rw [List.length_append, List.length_zipWith, List.length_drop]
        omega

/-- Witness for C2 (amended) at concrete inputs; the last conjunct is the
in-place addition of a right operand with shorter data, which combines the
zipped prefix and keeps the left operand's tail and length. -/
theorem constructors_length_spec_witness :
    (Vector.with_value (7 : Int) ⟨2, 4, 0, 0⟩).data.length =
      (⟨2, 4, (0 : Int), 0⟩ : Info Int).len ∧
    ([1, 2, 3] : List Int).length = (⟨2, 4, (0 : Int), 0⟩ : Info Int).len ∧
    ([10, 20] : List Int).length = 2 - 1 + 1 ∧
    ([10, 20] : List Int).length = 2 - 1 + 1 ∧
    (Vector.tryAssignGen (fun x y => x + y)
        (⟨[1, 2, 3], ⟨0, 2, 0, 0⟩⟩ : Vector Int)
        ⟨[9], ⟨0, 2, 0, 0⟩⟩).2.data.length = ([1, 2, 3] : List Int).length := by
  have h := constructors_length_spec (7 : Int) (⟨2, 4, 0, 0⟩ : Info Int)
    [1, 2, 3] ⟨[1, 2, 3], ⟨2, 4, 0, 0⟩⟩
    ⟨[1, 2, 3], ⟨0, 2, 0, 0⟩⟩ ⟨[9], ⟨0, 2, 0, 0⟩⟩ (fun x y => x + y)
    ([10, 20] : List Int) 1 2 ⟨[10, 20], 1, 2⟩ ⟨[10, 20], 1, 2⟩
  exact ⟨h.1, h.2.1 (by rfl), h.2.2.2.1 (by decide) (by decide) (by rfl),
    h.2.2.2.2.1 (by decide) (by decide) (by rfl), h.2.2.2.2.2⟩

/-! ## C3: total fallback indexing -/

/-- C3 counterexample: on a `with_capacity`-built fallback-overlay container
the in-range branch of read-indexing reaches the empty data and panics
(modelled by `none`), so read-indexing is not total on every `Vector`. -/
theorem with_capacity_index_panics :
    Vector.index (Vector.with_capacity (⟨0, 0, (9 : Int), 9⟩ : Info Int)) 0 =
      none := rfl

/-- C3 (amended): on every fallback-overlay `Vector` whose data length equals
`end - start + 1` in exact arithmetic (as `with_value` and `from_data`
establish away from the wrap-around span), read-indexing is total: below
`start` it returns `fallback_start`, above `end` it returns `fallback_end`,
and in range it returns the stored element at data position `i - start`
without panicking. -/
theorem vector_index_total {T : Type} (v : Vector T) (i : Nat)
    (hse : v.info.start ≤ v.info.end_)
    (hlen : v.data.length = v.info.end_ - v.info.start + 1) :
    (i < v.info.start → v.index i = some v.info.fallback_start) ∧
    (v.info.end_ < i → v.index i = some v.info.fallback_end) ∧
    (v.info.start ≤ i → i ≤ v.info.end_ →
      ∃ x, v.data[i - v.info.start]? = some x ∧ v.index i = some x) := by
  refine ⟨?_, ?_, ?_⟩
  · intro h
    simp [Vector.index, h]
  · intro h
    have hni : ¬ i < v.info.start := by omega
    simp [Vector.index, hni, h]
  · intro h1 h2
    have hlt : i - v.info.start < v.data.length := by omega
    refine ⟨v.data[i - v.info.start], List.getElem?_eq_getElem hlt, ?_⟩
    simp [Vector.index, Nat.not_lt.mpr h1, Nat.not_lt.mpr h2,
      List.getElem?_eq_getElem hlt]

/-- Witness for C3 (amended): the spec's concrete scenario, span `[0, 2]`,
fallbacks `-1` below and `-2` above, data `[10, 20, 30]`: index 3 reads the
above-fallback `-2`. -/
theorem vector_index_total_witness :
    Vector.index (⟨[10, 20, 30], ⟨0, 2, -1, -2⟩⟩ : Vector Int) 3 = some (-2) := by
  exact (vector_index_total (⟨[10, 20, 30], ⟨0, 2, -1, -2⟩⟩ : Vector Int) 3
    (by decide) (by decide)).2.1 (by decide)

/-! ## C4: monotonicity and failure modes of re-slicing -/

/-- Reduction: `BorrowedVector::try_new` succeeds when ordered and of matching length. -/
theorem try_new_eq_ok_of {V : Type} (l : List V) (s e : Nat) (h1 : s ≤ e)
    (h2 : l.length + s = e + 1) : BorrowedVector.try_new l s e = .ok ⟨l, s, e⟩ := by
  unfold BorrowedVector.try_new VectorError.check_order VectorError.check_len
  rw [if_pos h1, if_pos (by rw [h2])]

/-- Reduction: `OwnedVector::from_vec` succeeds when ordered and of matching length. -/
theorem from_vec_eq_ok_of {V : Type} (l : List V) (s e : Nat) (h1 : s ≤ e)
    (h2 : l.length + s = e + 1) : OwnedVector.from_vec l s e = .ok ⟨l, s, e⟩ := by
  unfold OwnedVector.from_vec VectorError.check_order VectorError.check_len
  rw [if_pos h1, if_pos (by rw [h2])]

/-- Reduction: `BorrowedVector::try_new` fails with `Order` on unordered bounds. -/
theorem try_new_eq_order {V : Type} (l : List V) (s e : Nat) (h1 : e < s) :
    BorrowedVector.try_new l s e = .error (.Order s e) := by
  unfold BorrowedVector.try_new VectorError.check_order
  rw [if_neg (by omega)]

/-- Inversion of a successful `OwnedVector::slice` on a well-formed container:
the resulting view is well-formed and carries the requested bounds. -/
theorem owned_slice_ok_inv {V : Type} (ov : OwnedVector V) (a b : Nat)
    (bv : BorrowedVector V) (hov : ov.Wf) (h : ov.slice a b = some (.ok bv)) :
    bv.Wf ∧ bv.start = a ∧ bv.end_ = b := by
  obtain ⟨h1, h2, h3⟩ := hov
  unfold OwnedVector.slice at h
  split_ifs at h with hguard hlt
  case pos =>
    obtain ⟨hga, hgb⟩ := hguard
    cases hsl : listSliceInclusive ov.vector (wrappingSub a ov.start)
        (wrappingSub b ov.start) with
    | none => rw [hsl] at h; simp at h
    | some s' =>
      rw [hsl] at h
      have hn : BorrowedVector.try_new s' a b = .ok bv := Option.some.inj h
      unfold BorrowedVector.try_new VectorError.check_order VectorError.check_len at hn
      split_ifs at hn with ho hl
      all_goals try simp at hn
      subst hn
      have hwsa : wrappingSub a ov.start = a - ov.start :=
        wrappingSub_of_le hga (by omega)
      have hwsb : wrappingSub b ov.start = b - ov.start :=
        wrappingSub_of_le (by omega) (by omega)
      rw [hwsa, hwsb] at hsl
      unfold listSliceInclusive at hsl
      split_ifs at hsl with hcond
      all_goals try simp at hsl
      have hlen : s'.length = b - a + 1 := by
        rw [← hsl, List.length_take, List.length_drop]
        omega
      exact ⟨⟨ho, show b < W by omega, hlen⟩, rfl, rfl⟩
  all_goals simp at h

/-- Inversion of a successful `BorrowedVector::slice`, as for the owned one. -/
theorem borrowed_slice_ok_inv {V : Type} (wv : BorrowedVector V) (a b : Nat)
    (bv : BorrowedVector V) (hwv : wv.Wf) (h : wv.slice a b = some (.ok bv)) :
    bv.Wf ∧ bv.start = a ∧ bv.end_ = b := by
  obtain ⟨h1, h2, h3⟩ := hwv
  unfold BorrowedVector.slice at h
  split_ifs at h with hguard hlt
  case pos =>
    obtain ⟨hga, hgb⟩ := hguard
    cases hsl : listSliceInclusive wv.slice_ (wrappingSub a wv.start)
        (wrappingSub b wv.start) with
    | none => rw [hsl] at h; simp at h
    | some s' =>
      rw [hsl] at h
      have hn : BorrowedVector.try_new s' a b = .ok bv := Option.some.inj h
      unfold BorrowedVector.try_new VectorError.check_order VectorError.check_len at hn
      split_ifs at hn with ho hl
      all_goals try simp at hn
      subst hn
      have hwsa : wrappingSub a wv.start = a - wv.start :=
        wrappingSub_of_le hga (by omega)
      have hwsb : wrappingSub b wv.start = b - wv.start :=
        wrappingSub_of_le (by omega) (by omega)
      rw [hwsa, hwsb] at hsl
      unfold listSliceInclusive at hsl
      split_ifs at hsl with hcond
      all_goals try simp at hsl
      have hlen : s'.length = b - a + 1 := by
        rw [← hsl, List.length_take, List.length_drop]
        omega
      exact ⟨⟨ho, show b < W by omega, hlen⟩, rfl, rfl⟩
  all_goals simp at h

/-- Case analysis of `BorrowedVector::slice` on a well-formed view with
bounds `[a, b]`: success exactly on sub-ranges `a <= c <= d <= b`; `Indexing`
on out-of-bounds requests; an `Order` error for the empty request `c = d + 1`
inside the span; a panic (`none`) when `c > d + 1`, or when `c = a` and
`d = a - 1` (the wrapped internal end index). -/
theorem borrowed_slice_cases {V : Type} (v : BorrowedVector V) (c d : Nat)
    (hv : v.Wf) (hc : c < W) :
    ((∃ r, v.slice c d = some (.ok r)) ↔ v.start ≤ c ∧ c ≤ d ∧ d ≤ v.end_) ∧
    (c < v.start → v.slice c d = some (.error (.Indexing c))) ∧
    (v.start ≤ c → v.end_ < d → v.slice c d = some (.error (.Indexing d))) ∧
    (v.start ≤ d → d ≤ v.end_ → c = d + 1 →
      v.slice c d = some (.error (.Order c d))) ∧
    (v.start ≤ c → d ≤ v.end_ → d + 1 < c → v.slice c d = none) ∧
    (c = v.start → d + 1 = v.start → v.slice c d = none) := by
  obtain ⟨h1, h2, h3⟩ := hv
  have hsucc : v.start ≤ c → c ≤ d → d ≤ v.end_ →
      v.slice c d = some (.ok ⟨(v.slice_.drop (c - v.start)).take (d - c + 1), c, d⟩) := by
    intro hsc hcd hde
    have hws1 : wrappingSub c v.start = c - v.start := wrappingSub_of_le hsc hc
    have hws2 : wrappingSub d v.start = d - v.start :=
      wrappingSub_of_le (by omega) (by omega)
    unfold BorrowedVector.slice
    rw [if_pos ⟨hsc, hde⟩, hws1, hws2]
    unfold listSliceInclusive
    rw [if_pos (by omega : c - v.start ≤ d - v.start + 1 ∧
      d - v.start + 1 ≤ v.slice_.length)]
    have harg : d - v.start + 1 - (c - v.start) = d - c + 1 := by omega
    rw [harg]
    have hlens : ((v.slice_.drop (c - v.start)).take (d - c + 1)).length = d - c + 1 := by
      rw [List.length_take, List.length_drop]
      omega
    exact congrArg Option.some (try_new_eq_ok_of _ c d hcd (by omega))
  have hbelow : c < v.start → v.slice c d = some (.error (.Indexing c)) := by
    intro h
    unfold BorrowedVector.slice
    rw [if_neg (by omega), if_pos h]
  have habove : v.start ≤ c → v.end_ < d → v.slice c d = some (.error (.Indexing d)) := by
    intro hsc h
    unfold BorrowedVector.slice
    rw [if_neg (by omega), if_neg (by omega)]
  have horder : v.start ≤ d → d ≤ v.end_ → c = d + 1 →
      v.slice c d = some (.error (.Order c d)) := by
    intro hsd hde hcd
    have hsc : v.start ≤ c := by omega
    have hws1 : wrappingSub c v.start = c - v.start := wrappingSub_of_le hsc hc
    have hws2 : wrappingSub d v.start = d - v.start :=
      wrappingSub_of_le hsd (by omega)
    unfold BorrowedVector.slice
    rw [if_pos ⟨hsc, hde⟩, hws1, hws2]
    unfold listSliceInclusive
    rw [if_pos (by omega : c - v.start ≤ d - v.start + 1 ∧
      d - v.start + 1 ≤ v.slice_.length)]
    exact congrArg Option.some (try_new_eq_order _ c d (by omega))
  have hpanic : v.start ≤ c → d ≤ v.end_ → d + 1 < c → v.slice c d = none := by
    intro hsc hde hdc
    unfold BorrowedVector.slice
    rw [if_pos ⟨hsc, hde⟩]
    have hws1 : wrappingSub c v.start = c - v.start := wrappingSub_of_le hsc hc
    rcases Nat.lt_or_ge d v.start with hds | hds
    · have hws2 : wrappingSub d v.start = d + W - v.start :=
        wrappingSub_of_lt hds (by omega)
      rw [hws1, hws2]
      unfold listSliceInclusive
      rw [if_neg (by omega)]
    · have hws2 : wrappingSub d v.start = d - v.start :=
        wrappingSub_of_le hds (by omega)
      rw [hws1, hws2]
      unfold listSliceInclusive
      rw [if_neg (by omega)]
  have hpanic2 : c = v.start → d + 1 = v.start → v.slice c d = none := by
    intro hca hda
    have hsc : v.start ≤ c := by omega
    have hde : d ≤ v.end_ := by omega
    unfold BorrowedVector.slice
    rw [if_pos ⟨hsc, hde⟩]
    have hws1 : wrappingSub c v.start = c - v.start := wrappingSub_of_le hsc hc
    have hws2 : wrappingSub d v.start = d + W - v.start :=
      wrappingSub_of_lt (by omega) (by omega)
    rw [hws1, hws2]
    unfold listSliceInclusive
    rw [if_neg (by omega)]
  refine ⟨⟨?_, ?_⟩, hbelow, habove, horder, hpanic, hpanic2⟩
  · rintro ⟨r, hr⟩
    by_contra hnot
    rcases Nat.lt_or_ge c v.start with hx | hx
    · rw [hbelow hx] at hr
      simp at hr
    rcases Nat.lt_or_ge v.end_ d with hy | hy
    · rw [habove hx hy] at hr
      simp at hr
    rcases Nat.lt_or_ge d c with hz | hz
    · rcases Nat.lt_or_ge (d + 1) c with hz1 | hz1
      · rw [hpanic hx hy hz1] at hr
        simp at hr
      · have hcd : c = d + 1 := by omega
        rcases Nat.lt_or_ge d v.start with hw | hw
        · rw [hpanic2 (by omega) (by omega)] at hr
          simp at hr
        · rw [horder hw hy hcd] at hr
          simp at hr
    · exact hnot ⟨hx, hz, hy⟩
  · rintro ⟨hx, hy, hz⟩
    exact ⟨_, hsucc hx hy hz⟩

/-- C4 (amended): for a view obtained as `container.slice(a, b)` from a
well-formed owned or borrowed container, `slice(c, d)` succeeds iff
`a <= c <= d <= b`; it fails with `Indexing {c}` when `c < a` and with
`Indexing {d}` when `c >= a` and `d > b`; but for in-bounds empty requests
`c = d + 1` it fails with `Order {c, d}` (not `Indexing`) when `d >= a`, and
panics when `c = a`, and it panics for every in-bounds request with
`c > d + 1`. -/
theorem slice_monotone_spec {V : Type} (bv : BorrowedVector V) (a b c d : Nat)
    (hobt : (∃ ov : OwnedVector V, ov.Wf ∧ ov.slice a b = some (.ok bv)) ∨
      (∃ wv : BorrowedVector V, wv.Wf ∧ wv.slice a b = some (.ok bv)))
    (hc : c < W) :
    ((∃ r, bv.slice c d = some (.ok r)) ↔ a ≤ c ∧ c ≤ d ∧ d ≤ b) ∧
    (c < a → bv.slice c d = some (.error (.Indexing c))) ∧
    (a ≤ c → b < d → bv.slice c d = some (.error (.Indexing d))) ∧
    (a ≤ d → d ≤ b → c = d + 1 → bv.slice c d = some (.error (.Order c d))) ∧
    (a ≤ c → d ≤ b → d + 1 < c → bv.slice c d = none) ∧
    (c = a → d + 1 = a → bv.slice c d = none) := by
  have hinv : bv.Wf ∧ bv.start = a ∧ bv.end_ = b := by
    rcases hobt with ⟨ov, hov, h⟩ | ⟨wv, hwv, h⟩
    · exact owned_slice_ok_inv ov a b bv hov h
    · exact borrowed_slice_ok_inv wv a b bv hwv h
  obtain ⟨hwf, hstart, hend⟩ := hinv
  have hcases := borrowed_slice_cases bv c d hwf hc
  rw [hstart, hend] at hcases
  exact hcases

/-- C4 counterexample: after `slice(5, 7)` of a container with span `[5, 7]`,
the in-bounds request `slice(7, 6)` fails with `Order {7, 6}` rather than
`Indexing`, and `slice(7, 5)` panics. -/
theorem slice_of_slice_error_shape :
    OwnedVector.slice (⟨[1, 2, 3], 5, 7⟩ : OwnedVector Int) 5 7 =
      some (.ok ⟨[1, 2, 3], 5, 7⟩) ∧
    BorrowedVector.slice (⟨[1, 2, 3], 5, 7⟩ : BorrowedVector Int) 7 6 =
      some (.error (.Order 7 6)) ∧
    BorrowedVector.slice (⟨[1, 2, 3], 5, 7⟩ : BorrowedVector Int) 7 5 = none := by
  refine ⟨?_, ?_, ?_⟩ <;> rfl

/-- Witness for C4 at a concrete sliced container: requesting `slice(4, 6)`
below the view's lower bound 5 reports `Indexing {4}`. -/
theorem slice_monotone_spec_witness :
    BorrowedVector.slice (⟨[1, 2, 3], 5, 7⟩ : BorrowedVector Int) 4 6 =
      some (.error (.Indexing 4)) := by
  exact (slice_monotone_spec (⟨[1, 2, 3], 5, 7⟩ : BorrowedVector Int) 5 7 4 6
    (Or.inl ⟨⟨[1, 2, 3], 5, 7⟩, ⟨by decide, by decide, by decide⟩, by rfl⟩)
    (by decide)).2.1 (by decide)

/-! ## C5: construction success and failure characterization -/

/-- C5 counterexample: in the wrap-around corner `end = usize::MAX`,
`from_vec` accepts the empty vector for the span `[0, usize::MAX]` (whose
exact length is `2^64`, not 0), instead of failing with `Length`. -/
theorem from_vec_wrap_accepts :
    OwnedVector.from_vec ([] : List Int) 0 (W - 1) = .ok ⟨[], 0, W - 1⟩ ∧
    ([] : List Int).length ≠ (W - 1) - 0 + 1 := by
  constructor
  · rfl
  · decide

/-- C5 (amended): for `end + 1 < 2^64` (every `end` except `usize::MAX`) and
a sequence of `usize`-bounded length, construction by `from_vec` / `try_new`
fails with `Order {start, end}` exactly when `start > end`, succeeds exactly
when `start <= end` and the sequence has `end - start + 1` elements (and then
the container holds that sequence and those bounds, so `length()` is
`end - start + 1`), and fails with `Length {len, start, end}` when
`start <= end` but the length differs. -/
theorem construction_spec {V : Type} (vec : List V) (s e : Nat)
    (hlen : vec.length < W) (he : e + 1 < W) :
    (e < s → OwnedVector.from_vec vec s e = .error (.Order s e) ∧
      BorrowedVector.try_new vec s e = .error (.Order s e)) ∧
    (s ≤ e → vec.length = e - s + 1 →
      OwnedVector.from_vec vec s e = .ok ⟨vec, s, e⟩ ∧
      BorrowedVector.try_new vec s e = .ok ⟨vec, s, e⟩) ∧
    (s ≤ e → vec.length ≠ e - s + 1 →
      OwnedVector.from_vec vec s e = .error (.Length vec.length s e) ∧
      BorrowedVector.try_new vec s e = .error (.Length vec.length s e)) := by
  refine ⟨?_, ?_, ?_⟩
  · intro h
    unfold OwnedVector.from_vec BorrowedVector.try_new VectorError.check_order
    rw [if_neg (by omega)]
    exact ⟨rfl, rfl⟩
  · intro h1 h2
    unfold OwnedVector.from_vec BorrowedVector.try_new VectorError.check_order
      VectorError.check_len
    rw [if_pos h1, if_pos (by rw [show vec.length + s = e + 1 from by omega])]
    exact ⟨rfl, rfl⟩
  · intro h1 h2
    have hne : (vec.length + s) % W ≠ (e + 1) % W := by
      rw [Nat.mod_eq_of_lt (show e + 1 < W by omega)]
      rcases mod_W_cases (vec.length + s) (by omega) with ⟨ha, hb⟩ | ⟨ha, hb⟩ <;> omega
    unfold OwnedVector.from_vec BorrowedVector.try_new VectorError.check_order
      VectorError.check_len
    rw [if_pos h1, if_neg hne]
    exact ⟨rfl, rfl⟩

/-- Witness for C5 at the spec's concrete scenario: `[5, 6, 7]` with bounds
`(5, 7)` constructs successfully, and with bounds `(7, 5)` fails with
`Order {7, 5}`. -/
theorem construction_spec_witness :
    (OwnedVector.from_vec [5, 6, 7] 5 7 = .ok (⟨[5, 6, 7], 5, 7⟩ : OwnedVector Int) ∧
      BorrowedVector.try_new [5, 6, 7] 5 7 = .ok (⟨[5, 6, 7], 5, 7⟩ : BorrowedVector Int)) ∧
    (OwnedVector.from_vec ([5, 6, 7] : List Int) 7 5 = .error (.Order 7 5) ∧
      BorrowedVector.try_new ([5, 6, 7] : List Int) 7 5 = .error (.Order 7 5)) := by
  constructor
  · exact (construction_spec ([5, 6, 7] : List Int) 5 7 (by decide)
      (by decide)).2.1 (by decide) (by decide)
  · exact (construction_spec ([5, 6, 7] : List Int) 7 5 (by decide)
      (by decide)).1 (by decide)

/-! ## C6: the length guard `len + start == end + 1` -/

/-- C6 counterexample: with `end = usize::MAX` the wrapped guard accepts
`len = 0, start = 0`, although `0` is not the exact span length
`usize::MAX - 0 + 1 = 2^64`. -/
theorem check_len_wrap_accepts :
    VectorError.check_len 0 0 (W - 1) = .ok () ∧
    (0 : Int) ≠ ((W : Int) - 1) - 0 + 1 := by
  constructor
  · rfl
  · norm_num [W]

/-- C6 (amended): the guard `len + start == end + 1` is computed modulo
`2^64`; whenever neither side overflows (`len + start <= usize::MAX` and
`end < usize::MAX`), `check_len` succeeds exactly when `len` equals the
exact integer span length `end - start + 1`, and otherwise fails with
`Length {len, start, end}`. -/
theorem check_len_spec (len s e : Nat) (h1 : len + s < W) (h2 : e + 1 < W) :
    (VectorError.check_len len s e = .ok () ↔
      (len : Int) = (e : Int) - (s : Int) + 1) ∧
    (VectorError.check_len len s e ≠ .ok () →
      VectorError.check_len len s e = .error (.Length len s e)) := by
  constructor
  · unfold VectorError.check_len
    rw [Nat.mod_eq_of_lt h1, Nat.mod_eq_of_lt h2]
    split_ifs with h <;> simp <;> omega
  · intro h
    unfold VectorError.check_len at h ⊢
    split_ifs at h ⊢ with hc
    · exact absurd rfl h
    · rfl

/-- Witness for C6: `check_len 3 5 7` succeeds and `3 = 7 - 5 + 1`. -/
theorem check_len_spec_witness :
    VectorError.check_len 3 5 7 = .ok () ∧ (3 : Int) = (7 : Int) - 5 + 1 := by
  have h := check_len_spec 3 5 7 (by decide) (by decide)
  exact ⟨h.1.mpr (by decide), by decide⟩

/-! ## C7: error handling of the in-place elementwise operations -/

/-- Case analysis of the shared `try_*_assign` shape: `IncompatibleInterval`
with the left operand untouched when the spans differ, `IncompatibleFallback`
with the left operand untouched when the spans match but a fallback differs,
and the elementwise combination only when both checks pass. -/
theorem tryAssignGen_cases {T : Type} [DecidableEq T] (f : T → T → T)
    (a b : Vector T) :
    (¬(a.info.start = b.info.start ∧ a.info.end_ = b.info.end_) →
      Vector.tryAssignGen f a b =
        (.error (.IncompatibleInterval a.info.start a.info.end_
          b.info.start b.info.end_), a)) ∧
    (a.info.start = b.info.start ∧ a.info.end_ = b.info.end_ →
      ¬(a.info.fallback_start = b.info.fallback_start ∧
        a.info.fallback_end = b.info.fallback_end) →
      Vector.tryAssignGen f a b = (.error .IncompatibleFallback, a)) ∧
    (a.info.start = b.info.start ∧ a.info.end_ = b.info.end_ →
      a.info.fallback_start = b.info.fallback_start ∧
        a.info.fallback_end = b.info.fallback_end →
      Vector.tryAssignGen f a b =
        (.ok (), ⟨List.zipWith f a.data b.data ++ a.data.drop b.data.length,
          a.info⟩)) := by
  unfold Vector.tryAssignGen Vector.VectorError.check_interval
    Vector.VectorError.check_fallback
  refine ⟨?_, ?_, ?_⟩
  · intro h
    rw [if_neg h]
  · intro h1 h2
    rw [if_pos h1, if_neg h2]
  · intro h1 h2
    rw [if_pos h1, if_pos h2]

/-- C7: `try_add_assign`, `try_sub_assign`, `try_mul_assign` and
`try_div_assign` fail with `IncompatibleInterval` when the spans differ and
with `IncompatibleFallback` when the spans match but a fallback differs, in
both cases leaving the left operand's data and info unchanged; elements are
combined only when both checks pass, in place over the zipped prefix with
the left operand's unpaired tail kept unchanged. -/
theorem try_assign_error_spec {T : Type} [DecidableEq T]
    [Add T] [Sub T] [Mul T] [Div T] (a b : Vector T) :
    (¬(a.info.start = b.info.start ∧ a.info.end_ = b.info.end_) →
      a.try_add_assign b = (.error (.IncompatibleInterval a.info.start
        a.info.end_ b.info.start b.info.end_), a) ∧
      a.try_sub_assign b = (.error (.IncompatibleInterval a.info.start
        a.info.end_ b.info.start b.info.end_), a) ∧
      a.try_mul_assign b = (.error (.IncompatibleInterval a.info.start
        a.info.end_ b.info.start b.info.end_), a) ∧
      a.try_div_assign b = (.error (.IncompatibleInterval a.info.start
        a.info.end_ b.info.start b.info.end_), a)) ∧
    (a.info.start = b.info.start ∧ a.info.end_ = b.info.end_ →
      ¬(a.info.fallback_start = b.info.fallback_start ∧
        a.info.fallback_end = b.info.fallback_end) →
      a.try_add_assign b = (.error .IncompatibleFallback, a) ∧
      a.try_sub_assign b = (.error .IncompatibleFallback, a) ∧
      a.try_mul_assign b = (.error .IncompatibleFallback, a) ∧
      a.try_div_assign b = (.error .IncompatibleFallback, a)) ∧
    (a.info.start = b.info.start ∧ a.info.end_ = b.info.end_ →
      a.info.fallback_start = b.info.fallback_start ∧
        a.info.fallback_end = b.info.fallback_end →
      a.try_add_assign b = (.ok (), ⟨List.zipWith (· + ·) a.data b.data ++
        a.data.drop b.data.length, a.info⟩) ∧
      a.try_sub_assign b = (.ok (), ⟨List.zipWith (· - ·) a.data b.data ++
        a.data.drop b.data.length, a.info⟩) ∧
      a.try_mul_assign b = (.ok (), ⟨List.zipWith (· * ·) a.data b.data ++
        a.data.drop b.data.length, a.info⟩) ∧
      a.try_div_assign b = (.ok (), ⟨List.zipWith (· / ·) a.data b.data ++
        a.data.drop b.data.length, a.info⟩)) := by
  refine ⟨?_, ?_, ?_⟩
  · intro h
    exact ⟨(tryAssignGen_cases (· + ·) a b).1 h, (tryAssignGen_cases (· - ·) a b).1 h,
      (tryAssignGen_cases (· * ·) a b).1 h, (tryAssignGen_cases (· / ·) a b).1 h⟩
  · intro h1 h2
    exact ⟨(tryAssignGen_cases (· + ·) a b).2.1 h1 h2,
      (tryAssignGen_cases (· - ·) a b).2.1 h1 h2,
      (tryAssignGen_cases (· * ·) a b).2.1 h1 h2,
      (tryAssignGen_cases (· / ·) a b).2.1 h1 h2⟩
  · intro h1 h2
    exact ⟨(tryAssignGen_cases (· + ·) a b).2.2 h1 h2,
      (tryAssignGen_cases (· - ·) a b).2.2 h1 h2,
      (tryAssignGen_cases (· * ·) a b).2.2 h1 h2,
      (tryAssignGen_cases (· / ·) a b).2.2 h1 h2⟩

/-- Witness for C7: containers with spans `[0, 0]` and `[0, 1]` are rejected
by all four in-place operations with `IncompatibleInterval`, left operand
untouched. -/
theorem try_assign_error_spec_witness :
    Vector.try_add_assign (⟨[1], ⟨0, 0, 7, 7⟩⟩ : Vector Int) ⟨[2, 3], ⟨0, 1, 7, 7⟩⟩ =
      (.error (.IncompatibleInterval 0 0 0 1), ⟨[1], ⟨0, 0, 7, 7⟩⟩) ∧
    Vector.try_sub_assign (⟨[1], ⟨0, 0, 7, 7⟩⟩ : Vector Int) ⟨[2, 3], ⟨0, 1, 7, 7⟩⟩ =
      (.error (.IncompatibleInterval 0 0 0 1), ⟨[1], ⟨0, 0, 7, 7⟩⟩) ∧
    Vector.try_mul_assign (⟨[1], ⟨0, 0, 7, 7⟩⟩ : Vector Int) ⟨[2, 3], ⟨0, 1, 7, 7⟩⟩ =
      (.error (.IncompatibleInterval 0 0 0 1), ⟨[1], ⟨0, 0, 7, 7⟩⟩) ∧
    Vector.try_div_assign (⟨[1], ⟨0, 0, 7, 7⟩⟩ : Vector Int) ⟨[2, 3], ⟨0, 1, 7, 7⟩⟩ =
      (.error (.IncompatibleInterval 0 0 0 1), ⟨[1], ⟨0, 0, 7, 7⟩⟩) := by
  exact (try_assign_error_spec (⟨[1], ⟨0, 0, 7, 7⟩⟩ : Vector Int)
    ⟨[2, 3], ⟨0, 1, 7, 7⟩⟩).1 (by decide)

/-! ## C8: commutativity of elementwise addition -/

/-- Pointwise-commutative zips are symmetric in their list arguments. -/
theorem zipWith_comm_of {T : Type} (f : T → T → T) (hf : ∀ x y, f x y = f y x) :
    ∀ l1 l2 : List T, List.zipWith f l1 l2 = List.zipWith f l2 l1
  | [], l2 => by cases l2 <;> rfl
  | x :: l1, [] => rfl
  | x :: l1, y :: l2 => by
    rw [List.zipWith_cons_cons, List.zipWith_cons_cons, hf x y,
      zipWith_comm_of f hf l1 l2]

/-- Two `Info`s with equal fields are equal. -/
theorem Info.eq_of_fields {T : Type} {i1 i2 : Info T} (h1 : i1.start = i2.start)
    (h2 : i1.end_ = i2.end_) (h3 : i1.fallback_start = i2.fallback_start)
    (h4 : i1.fallback_end = i2.fallback_end) : i1 = i2 := by
  cases i1
  cases i2
  simp_all

/-- C8: when addition on the element type is commutative, `&a + &b` and
`&b + &a` either fail with the same error kind or succeed with equal data
and equal `Info` fields. -/
theorem add_comm_outcome {T : Type} [DecidableEq T] [Add T]
    (hcomm : ∀ x y : T, x + y = y + x) (a b : Vector T) :
    Vector.sameOutcome (Vector.add a b) (Vector.add b a) := by
  unfold Vector.add Vector.VectorError.check_interval
    Vector.VectorError.check_fallback
  by_cases h1 : a.info.start = b.info.start ∧ a.info.end_ = b.info.end_
  · have h1' : b.info.start = a.info.start ∧ b.info.end_ = a.info.end_ :=
      ⟨h1.1.symm, h1.2.symm⟩
    rw [if_pos h1, if_pos h1']
    by_cases h2 : a.info.fallback_start = b.info.fallback_start ∧
        a.info.fallback_end = b.info.fallback_end
    · have h2' : b.info.fallback_start = a.info.fallback_start ∧
          b.info.fallback_end = a.info.fallback_end := ⟨h2.1.symm, h2.2.symm⟩
      rw [if_pos h2, if_pos h2']
      exact ⟨zipWith_comm_of _ hcomm a.data b.data,
        Info.eq_of_fields h1.1 h1.2 h2.1 h2.2⟩
    · have h2' : ¬(b.info.fallback_start = a.info.fallback_start ∧
          b.info.fallback_end = a.info.fallback_end) :=
        fun hx => h2 ⟨hx.1.symm, hx.2.symm⟩
      rw [if_neg h2, if_neg h2']
      rfl
  · have h1' : ¬(b.info.start = a.info.start ∧ b.info.end_ = a.info.end_) :=
      fun hx => h1 ⟨hx.1.symm, hx.2.symm⟩
    rw [if_neg h1, if_neg h1']
    rfl

/-- Witness for C8 with commutativity of `Int` addition discharged at
concrete compatible containers. -/
theorem add_comm_outcome_witness :
    Vector.sameOutcome
      (Vector.add (⟨[1, 2], ⟨3, 4, 0, 9⟩⟩ : Vector Int) ⟨[5, 6], ⟨3, 4, 0, 9⟩⟩)
      (Vector.add (⟨[5, 6], ⟨3, 4, 0, 9⟩⟩ : Vector Int) ⟨[1, 2], ⟨3, 4, 0, 9⟩⟩) := by
  exact add_comm_outcome (fun x y => Int.add_comm x y)
    ⟨[1, 2], ⟨3, 4, 0, 9⟩⟩ ⟨[5, 6], ⟨3, 4, 0, 9⟩⟩

/-! ## C9: identity slicing is observationally neutral -/

/-- C9: on a well-formed `OwnedVector` or `BorrowedVector` (the construction
invariant: storage length equals `end - start + 1`), slicing at the
container's own bounds succeeds, and the resulting view carries the same
storage, `start` and `end` (hence the same `len()`), and answers every `get`
exactly like the original. -/
theorem identity_slice_spec {V : Type} (v : OwnedVector V) (w : BorrowedVector V)
    (hv : v.Wf) (hw : w.Wf) :
    v.slice v.start v.end_ = some (.ok ⟨v.vector, v.start, v.end_⟩) ∧
    (∀ i, (⟨v.vector, v.start, v.end_⟩ : BorrowedVector V).get i = v.get i) ∧
    w.slice w.start w.end_ = some (.ok ⟨w.slice_, w.start, w.end_⟩) ∧
    (∀ i, (⟨w.slice_, w.start, w.end_⟩ : BorrowedVector V).get i = w.get i) := by
  obtain ⟨h1, h2, h3⟩ := hv
  obtain ⟨g1, g2, g3⟩ := hw
  refine ⟨?_, fun i => rfl, ?_, fun i => rfl⟩
  · unfold OwnedVector.slice
    rw [if_pos ⟨le_refl _, le_refl _⟩,
      wrappingSub_of_le (le_refl v.start) (by omega),
      wrappingSub_of_le h1 (by omega)]
    unfold listSliceInclusive
    rw [if_pos (by omega)]
    rw [show v.start - v.start = 0 from by omega, List.drop_zero,
      show v.end_ - v.start + 1 - 0 = v.end_ - v.start + 1 from by omega,
      show v.end_ - v.start + 1 = v.vector.length from h3.symm, List.take_length]
    exact congrArg Option.some (try_new_eq_ok_of v.vector v.start v.end_ h1 (by omega))
  · unfold BorrowedVector.slice
    rw [if_pos ⟨le_refl _, le_refl _⟩,
      wrappingSub_of_le (le_refl w.start) (by omega),
      wrappingSub_of_le g1 (by omega)]
    unfold listSliceInclusive
    rw [if_pos (by omega)]
    rw [show w.start - w.start = 0 from by omega, List.drop_zero,
      show w.end_ - w.start + 1 - 0 = w.end_ - w.start + 1 from by omega,
      show w.end_ - w.start + 1 = w.slice_.length from g3.symm, List.take_length]
    exact congrArg Option.some (try_new_eq_ok_of w.slice_ w.start w.end_ g1 (by omega))

/-- Witness for C9 at the concrete container `[5, 6, 7]` with span `[5, 7]`. -/
theorem identity_slice_spec_witness :
    OwnedVector.slice (⟨[5, 6, 7], 5, 7⟩ : OwnedVector Int) 5 7 =
      some (.ok ⟨[5, 6, 7], 5, 7⟩) ∧
    BorrowedVector.slice (⟨[5, 6, 7], 5, 7⟩ : BorrowedVector Int) 5 7 =
      some (.ok ⟨[5, 6, 7], 5, 7⟩) := by
  have h := identity_slice_spec (⟨[5, 6, 7], 5, 7⟩ : OwnedVector Int)
    (⟨[5, 6, 7], 5, 7⟩ : BorrowedVector Int)
    ⟨by decide, by decide, by decide⟩ ⟨by decide, by decide, by decide⟩
  exact ⟨h.1, h.2.2.1⟩

/-! ## C10: the `vector!` literal macro -/

/-- C10 counterexample: `vector![usize::MAX; 1, 2]` panics, because
`start + len - 1` overflows (wrapping the computed `end` to 0 in release
builds), so the claim that the macro never panics for nonempty element lists
fails. -/
theorem vectorLit_overflow_panics :
    vectorLit (W - 1) [(1 : Int), 2] = none := by rfl

/-- C10 (amended): for a nonempty element list whose final index
`start + n - 1` does not overflow `usize`, the `vector!` macro never panics
and yields the elements in order with `start() = start` and
`end() = start + n - 1`; with an empty element list it always panics. -/
theorem vectorLit_spec {V : Type} (start : Nat) (elems : List V)
    (hne : elems ≠ []) (hof : start + elems.length - 1 < W) :
    vectorLit start elems = some ⟨elems, start, start + elems.length - 1⟩ ∧
    vectorLit start ([] : List V) = none := by
  constructor
  · have hlen : 0 < elems.length := List.length_pos.mpr hne
    unfold vectorLit
    rw [if_pos hlen, Nat.mod_eq_of_lt hof,
      from_vec_eq_ok_of elems start (start + elems.length - 1) (by omega) (by omega)]
  · unfold vectorLit
    rw [if_neg (by simp)]
    unfold OwnedVector.from_vec VectorError.check_order VectorError.check_len
    rw [if_pos (le_refl start), if_neg ?hmod]
    case hmod =>
      intro hx
      have hWgt := one_lt_W
      have hml : start % W < W := Nat.mod_lt _ W_pos
      have e1 : (start + 1) % W = (start % W + 1) % W := by
        rw [Nat.add_mod, Nat.mod_eq_of_lt one_lt_W]
      have e0 : (List.length ([] : List V) + start) % W = start % W := by
        simp
      rw [e0, e1] at hx
      rcases mod_W_cases (start % W + 1) (by omega) with ⟨ha, hb⟩ | ⟨ha, hb⟩ <;> omega

/-- Witness for C10 at the crate's doc example `vector![5; 5, 6, 7]`, which
yields the owned container with span `[5, 7]`, plus the empty-list panic. -/
theorem vectorLit_spec_witness :
    vectorLit 5 ([5, 6, 7] : List Int) = some ⟨[5, 6, 7], 5, 7⟩ ∧
    vectorLit 5 ([] : List Int) = none := by
  exact vectorLit_spec 5 ([5, 6, 7] : List Int) (by decide) (by decide)

end VectorSpec
